import Mathlib

/-!
Shallow embedding of `workerpool/workerpool.py` (classes `Worker`, `WorkerPool`,
`Watchman`, `SummoningPool`, and the context managers `pool` and
`summoning_pool`).

Modelling conventions:
* The three queues (`inbox`, `outbox`, `errbox`) are unbounded FIFOs; for the
  worker-level claims the `outbox`/`errbox` contents are lists (put appends at
  the back).  For the pool-level claims only `inbox.qsize()` matters, kept as a
  `Nat` field.
* Threads are not scheduled here; each Python method is embedded as a pure
  function on an explicit state, and the blocking calls it performs
  (`inbox.join()`, `worker.join()`, setting events) are recorded in order as an
  event trace, so that ordering claims ("drain before stop flag before joins")
  become statements about the trace.
* Invoking a user-supplied operation either returns a value or raises; this is
  the `ExecOutcome` sum.  Python exception objects are opaque values of a type
  parameter.
-/

namespace Workerpool

/-- Outcome of invoking the user operation `thingie(*args, **kwargs)`:
it either returns a value or raises an exception object. -/
inductive ExecOutcome (ρ ε : Type) where
  | ok : ρ → ExecOutcome ρ ε
  | raises : ε → ExecOutcome ρ ε
deriving DecidableEq

/-- The worker-visible state of the two result queues plus the count of
`inbox.task_done()` calls the worker has made. -/
structure WorkerBoxes (ρ ε : Type) where
  outbox : List ρ
  errbox : List ε
  taskDoneCalls : Nat
deriving DecidableEq

/-- Embedding of the body of `Worker.run` that handles one successfully
dequeued and unpacked item (workerpool.py lines 156-162):

    try:
        result = thingie(*args, **kwargs)
        self.outbox.put(result)
    except Exception, e:
        self.errbox.put(e)
    finally:
        self.inbox.task_done()

The invocation of the operation is abstracted as its `ExecOutcome`.  The
function is total: no exception escapes this block (the `except` arm consumes
it), which embeds "the worker itself never propagates exceptions from user
work". -/
def Worker.handleItem {ρ ε : Type} (exec : ExecOutcome ρ ε)
    (st : WorkerBoxes ρ ε) : WorkerBoxes ρ ε :=
  match exec with
  | .ok result =>
      { st with outbox := st.outbox ++ [result],
                taskDoneCalls := st.taskDoneCalls + 1 }
  | .raises e =>
      { st with errbox := st.errbox ++ [e],
                taskDoneCalls := st.taskDoneCalls + 1 }

/-- Result of the worker's attempt `self.inbox.get(block=True, timeout=1)`:
either the queue turned out empty (a `Queue.Empty` is raised) or an item was
dequeued and unpacked, in which case only the outcome of executing it matters
here. -/
inductive DequeueResult (ρ ε : Type) where
  | empty : DequeueResult ρ ε
  | item : ExecOutcome ρ ε → DequeueResult ρ ε
deriving DecidableEq

/-- Embedding of one pass of `Worker.run`'s outer `try ... except Queue.Empty:
pass` (workerpool.py lines 151-165): a timed-out dequeue changes nothing, a
dequeued item is handled by `Worker.handleItem`. -/
def Worker.loopBody {ρ ε : Type} (dq : DequeueResult ρ ε)
    (st : WorkerBoxes ρ ε) : WorkerBoxes ρ ε :=
  match dq with
  | .empty => st
  | .item exec => Worker.handleItem exec st

/-! ### Pool state -/

/-- One `Worker` as the pool sees it: the `name` argument it was constructed
with, its `stagger` delay, and its `_banished` event (created cleared,
set only by `Worker.banish`). -/
structure WorkerRec where
  name : Nat
  stagger : Nat
  banished : Bool
deriving DecidableEq

/-- State of a `WorkerPool` (also the base state of a `SummoningPool`):
the inbound queue size, the `self.pool` list of workers in append order,
and the two shared events `_run` and `_stop`. -/
structure PoolState where
  inboxSize : Nat
  pool : List WorkerRec
  runFlag : Bool
  stopFlag : Bool
deriving DecidableEq

/-- Blocking or signalling steps a pool method performs, in program order. -/
inductive PoolEvent where
  | inboxJoin : PoolEvent
  | setStop : PoolEvent
  | setWatcherStop : PoolEvent
  | banishSignal : Nat → PoolEvent
  | joinWorker : Nat → PoolEvent
deriving DecidableEq

def PoolEvent.isJoinWorker : PoolEvent → Bool
  | .joinWorker _ => true
  | _ => false

/-- `WorkerPool.poolsize`: `len(self.pool)`. -/
def WorkerPool.poolsize (st : PoolState) : Nat :=
  st.pool.length

/-- One iteration of the loop in `WorkerPool.summon` (workerpool.py lines
214-221): `cstagger += stagger`, then create and start
`Worker(..., name=cn, stagger=cstagger)` and append it to `self.pool`.  The
accumulator carries (pool state, `cstagger`). -/
def WorkerPool.summonStep (stagger : Nat) (acc : PoolState × Nat) (cn : Nat) :
    PoolState × Nat :=
  let cstagger := acc.2 + stagger
  ({ acc.1 with pool := acc.1.pool ++ [⟨cn, cstagger, false⟩] }, cstagger)

/-- `WorkerPool.summon(count, stagger)` (workerpool.py lines 203-221):
`cstagger = 0`, then the loop body `WorkerPool.summonStep` over
`range(count)`. -/
def WorkerPool.summon (st : PoolState) (count : Nat) (stagger : Nat) :
    PoolState :=
  ((List.range count).foldl (WorkerPool.summonStep stagger) (st, 0)).1

/-- `Worker.banish` (workerpool.py lines 136-139): sets the worker's
`_banished` event. -/
def WorkerRec.banish (w : WorkerRec) : WorkerRec :=
  { w with banished := true }

/-- The inner loop of `WorkerPool.banish` (workerpool.py lines 230-234),
run for `min(count, len(self.pool))` iterations: each iteration pops the
last worker off `self.pool`, sets its `_banished` event, and appends it to
the local `banished` list. -/
def WorkerPool.banishLoop :
    Nat → List WorkerRec → List WorkerRec → List WorkerRec × List WorkerRec
  | 0, p, acc => (p, acc)
  | Nat.succ n, p, acc =>
      match p.getLast? with
      | none => (p, acc)
      | some w =>
          WorkerPool.banishLoop n p.dropLast (acc ++ [w.banish])

/-- `WorkerPool.banish(count)` (workerpool.py lines 223-237): pop-and-signal
`min(count, len(self.pool))` workers, then join each of the removed workers.
Returns the new state and the trace: one `banishSignal` per removed worker
in removal order, followed by one `joinWorker` per removed worker in the same
order. -/
def WorkerPool.banish (st : PoolState) (count : Nat) :
    PoolState × List PoolEvent :=
  let r := WorkerPool.banishLoop (min count st.pool.length) st.pool []
  ({ st with pool := r.1 },
   r.2.map (fun w => PoolEvent.banishSignal w.name)
     ++ r.2.map (fun w => PoolEvent.joinWorker w.name))

/-- `WorkerPool.stop(join)` (workerpool.py lines 249-262):

    if join:
        self.inbox.join()
    self._stop.set()
    for worker in self.pool:
        worker.join()

Note the method leaves `self.pool` itself untouched. -/
def WorkerPool.stop (st : PoolState) (join : Bool) :
    PoolState × List PoolEvent :=
  ({ st with stopFlag := true },
   (if join then [PoolEvent.inboxJoin] else [])
     ++ [PoolEvent.setStop]
     ++ st.pool.map (fun w => PoolEvent.joinWorker w.name))

/-- `SummoningPool.stop(join)` (workerpool.py lines 345-359): sets the
watchman's stop event first, then performs the same steps as
`WorkerPool.stop`. -/
def SummoningPool.stop (st : PoolState) (join : Bool) :
    PoolState × List PoolEvent :=
  ({ st with stopFlag := true },
   PoolEvent.setWatcherStop
     :: ((if join then [PoolEvent.inboxJoin] else [])
          ++ [PoolEvent.setStop]
          ++ st.pool.map (fun w => PoolEvent.joinWorker w.name)))

/-- `WorkerPool.__init__(wcount, stagger, ...)` (workerpool.py lines 183-196):
fresh queues and cleared events, `self.pool = []`, then
`self.summon(wcount, stagger=stagger)` and `self.start()` — the pool thread's
`run` method sets `self._run`. -/
def WorkerPool.make (wcount : Nat) (stagger : Nat) : PoolState :=
  let st0 : PoolState :=
    { inboxSize := 0, pool := [], runFlag := false, stopFlag := false }
  let st1 := WorkerPool.summon st0 wcount stagger
  { st1 with runFlag := true }

/-- A worker has terminated iff it observed the shared stop event or its own
banish event: `Worker.run` returns exactly when `self._stop.is_set()` or
`self._banished.is_set()` (workerpool.py lines 146-148). -/
def WorkerRec.terminatedIn (st : PoolState) (w : WorkerRec) : Bool :=
  st.stopFlag || w.banished

/-! ### Watchman -/

/-- The tunable parameters of `Watchman.__init__` (workerpool.py lines
286-295): the baseline worker count `wcount`, the maximum `maxw`, the
per-tick change `rate` and the target work-to-worker `ratio`.  The poll
`interval` and the back-reference to the pool play no role in the pure tick
and are not represented. -/
structure Watchman where
  wcount : Nat
  maxw : Nat
  rate : Nat
  ratio : Nat
deriving DecidableEq

/-- What a tick did to the pool, for stating the control policy. -/
inductive WatchAction where
  | summoned : Nat → WatchAction
  | banished : Nat → WatchAction
  | idle : WatchAction
deriving DecidableEq

/-- One iteration of the `while` loop in `Watchman.run` (workerpool.py lines
300-313):

    size = self.pool.inbox.qsize()
    psize = self.pool.poolsize()
    if size and psize:
        current = (size / self.pool.poolsize())
        if current > self.ratio and (psize < self.maxw):
            spawn = min([self.rate, (self.maxw - psize)])
            self.pool.summon(spawn)
        elif current < self.ratio:
            self.pool.banish(self.rate)
    else:
        if psize > self.wcount:
            self.pool.banish(self.rate)

Python-2 truthiness of `if size and psize` is `size ≠ 0 ∧ psize ≠ 0`, and
`size / psize` on non-negative ints is floor division, which is `Nat`
division.  `summon` is called without a stagger argument, so stagger `0`. -/
def Watchman.tick (w : Watchman) (st : PoolState) : PoolState × WatchAction :=
  let size := st.inboxSize
  let psize := WorkerPool.poolsize st
  if size ≠ 0 ∧ psize ≠ 0 then
    let current := size / WorkerPool.poolsize st
    if current > w.ratio ∧ psize < w.maxw then
      let spawn := min w.rate (w.maxw - psize)
      (WorkerPool.summon st spawn 0, WatchAction.summoned spawn)
    else if current < w.ratio then
      ((WorkerPool.banish st w.rate).1, WatchAction.banished w.rate)
    else
      (st, WatchAction.idle)
  else
    if psize > w.wcount then
      ((WorkerPool.banish st w.rate).1, WatchAction.banished w.rate)
    else
      (st, WatchAction.idle)

/-- The tick policy transcribed from the words of the specification (for the
refinement comparison with `Watchman.tick`): "with backlog = inbox.qsize()
and workers = poolsize(), if backlog > 0 and workers > 0 then pressure =
floor(backlog / workers); if pressure > ratio and workers < maxWorkers,
exactly min(rate, maxWorkers - workers) workers are summoned; otherwise if
pressure < ratio, banish(rate) is issued; if backlog = 0 or workers = 0,
banish(rate) is issued exactly when workers > baselineWorkerCount, else
nothing happens." -/
def watchmanTickSpec (w : Watchman) (st : PoolState) : PoolState × WatchAction :=
  let backlog := st.inboxSize
  let workers := WorkerPool.poolsize st
  if 0 < backlog ∧ 0 < workers then
    let pressure := backlog / workers
    if w.ratio < pressure ∧ workers < w.maxw then
      (WorkerPool.summon st (min w.rate (w.maxw - workers)) 0,
       WatchAction.summoned (min w.rate (w.maxw - workers)))
    else if pressure < w.ratio then
      ((WorkerPool.banish st w.rate).1, WatchAction.banished w.rate)
    else
      (st, WatchAction.idle)
  else
    if w.wcount < workers then
      ((WorkerPool.banish st w.rate).1, WatchAction.banished w.rate)
    else
      (st, WatchAction.idle)

/-! ### Operation sequences -/

/-- The pool operations a caller (or the watchman) can issue, for stating
invariants "after any sequence of summon, banish and stop operations". -/
inductive PoolOp where
  | summonOp : Nat → Nat → PoolOp
  | banishOp : Nat → PoolOp
  | stopOp : Bool → PoolOp
deriving DecidableEq

/-- Apply one `PoolOp` to the pool state (traces dropped). -/
def applyOp (st : PoolState) : PoolOp → PoolState
  | .summonOp count stagger => WorkerPool.summon st count stagger
  | .banishOp count => (WorkerPool.banish st count).1
  | .stopOp join => (WorkerPool.stop st join).1

/-- Apply a sequence of operations left to right. -/
def applyOps (st : PoolState) (ops : List PoolOp) : PoolState :=
  ops.foldl applyOp st

/-! ### Context managers -/

/-- How the caller-supplied `with`-body finishes. -/
inductive ScopeExit where
  | normal : ScopeExit
  | earlyReturn : ScopeExit
  | raised : ScopeExit
deriving DecidableEq

/-- Embedding of `@contextmanager def pool(...)` (workerpool.py lines 362-370):
the generator body is

    pool = WorkerPool(*args, **kwargs)
    yield pool
    pool.exile()

with no `try`/`finally` around the `yield`.  Under `contextlib`
semantics, a normal exit of the `with` body (including a `return` out of the
enclosing function) calls `__exit__(None, None, None)`, which resumes the
generator and runs `pool.exile()`; an exception raised by the body calls
`__exit__(exc, ...)`, which throws the exception into the generator at the
`yield` point — with no handler there it propagates and the `pool.exile()`
line is never reached.  This function counts how many times `pool.exile()`
runs for each way of leaving the scope. -/
def poolScopeExileCalls : ScopeExit → Nat
  | .normal => 1
  | .earlyReturn => 1
  | .raised => 0

/-- Embedding of `@contextmanager def summoning_pool(...)` (workerpool.py
lines 373-381); the generator has the same shape (`yield pool` then
`pool.exile()`, no `try`/`finally`), so the count is the same. -/
def summoningPoolScopeExileCalls : ScopeExit → Nat
  | .normal => 1
  | .earlyReturn => 1
  | .raised => 0

/-! ### Closed forms for `summon` and `banish` -/

/-- The summon loop in closed form: folding `summonStep` over `range n`
appends one worker per index, the worker created at index `cn` carrying the
accumulated stagger `(cn + 1) * s`, and leaves the accumulator at `n * s`. -/
theorem summon_foldl_closed (st : PoolState) (s : Nat) (n : Nat) :
    (List.range n).foldl (WorkerPool.summonStep s) (st, 0) =
      ({ st with
          pool := st.pool
            ++ (List.range n).map (fun cn => ⟨cn, (cn + 1) * s, false⟩) },
       n * s) := by
  induction n with
  | zero => simp
  | succ n ih =>
      rw [List.range_succ, List.foldl_append, ih]
      simp [WorkerPool.summonStep, List.range_succ, Nat.succ_mul]

/-- `summon` in closed form: the new workers are appended after the existing
pool, named `0, …, count-1`, the `cn`-th carrying stagger `(cn + 1) * s`. -/
theorem summon_pool_eq (st : PoolState) (count s : Nat) :
    (WorkerPool.summon st count s).pool =
      st.pool ++ (List.range count).map (fun cn => ⟨cn, (cn + 1) * s, false⟩) := by
  unfold WorkerPool.summon
  rw [summon_foldl_closed]

theorem summon_inboxSize (st : PoolState) (count s : Nat) :
    (WorkerPool.summon st count s).inboxSize = st.inboxSize := by
  unfold WorkerPool.summon
  rw [summon_foldl_closed]

theorem summon_stopFlag (st : PoolState) (count s : Nat) :
    (WorkerPool.summon st count s).stopFlag = st.stopFlag := by
  unfold WorkerPool.summon
  rw [summon_foldl_closed]

theorem poolsize_summon (st : PoolState) (count s : Nat) :
    WorkerPool.poolsize (WorkerPool.summon st count s) =
      WorkerPool.poolsize st + count := by
  simp [WorkerPool.poolsize, summon_pool_eq]

/-- The banish loop in closed form, for `n ≤ p.length`: it keeps the first
`p.length - n` workers and moves the last `n`, in pop (reverse) order and
with their banish event set, onto the accumulator. -/
theorem banishLoop_closed (n : Nat) :
    ∀ (p acc : List WorkerRec), n ≤ p.length →
      WorkerPool.banishLoop n p acc =
        (p.take (p.length - n),
         acc ++ (p.drop (p.length - n)).reverse.map WorkerRec.banish) := by
  induction n with
  | zero =>
      intro p acc _
      simp [WorkerPool.banishLoop]
  | succ n ih =>
      intro p acc h
      rcases p.eq_nil_or_concat' with rfl | ⟨q, w, rfl⟩
      · simp at h
      · have hn : n ≤ q.length := by
          simpa using Nat.le_of_succ_le_succ (by simpa using h)
        have hsub : q.length - n ≤ q.length := Nat.sub_le _ _
        rw [WorkerPool.banishLoop, List.getLast?_concat, List.dropLast_concat]
        rw [show (match some w with
              | none => (q ++ [w], acc)
              | some w => WorkerPool.banishLoop n q (acc ++ [w.banish])) =
            WorkerPool.banishLoop n q (acc ++ [w.banish]) from rfl]
        rw [ih q (acc ++ [w.banish]) hn]
        simp only [List.length_append, List.length_singleton,
          Nat.add_sub_add_right, List.take_append_of_le_length hsub,
          List.drop_append_of_le_length hsub, List.reverse_append,
          List.reverse_singleton, List.singleton_append, List.map_cons,
          List.append_assoc]

/-- `banish` in closed form: the pool keeps its first
`length - min count length` workers; the removed ones, most-recently-added
first and banish-flagged, are first signalled and then joined. -/
theorem banish_closed (st : PoolState) (count : Nat) :
    WorkerPool.banish st count =
      ({ st with
          pool := st.pool.take
            (st.pool.length - min count st.pool.length) },
       ((st.pool.drop (st.pool.length - min count st.pool.length)).reverse.map
          WorkerRec.banish).map (fun w => PoolEvent.banishSignal w.name)
         ++ ((st.pool.drop
            (st.pool.length - min count st.pool.length)).reverse.map
            WorkerRec.banish).map (fun w => PoolEvent.joinWorker w.name)) := by
  unfold WorkerPool.banish
  rw [banishLoop_closed _ _ _ (Nat.min_le_right _ _)]
  simp only [List.nil_append]

theorem poolsize_banish (st : PoolState) (count : Nat) :
    WorkerPool.poolsize (WorkerPool.banish st count).1 =
      WorkerPool.poolsize st - min count (WorkerPool.poolsize st) := by
  rw [banish_closed]
  simp [WorkerPool.poolsize, List.length_take]

theorem banish_inboxSize (st : PoolState) (count : Nat) :
    (WorkerPool.banish st count).1.inboxSize = st.inboxSize := by
  rw [banish_closed]

theorem banish_stopFlag (st : PoolState) (count : Nat) :
    (WorkerPool.banish st count).1.stopFlag = st.stopFlag := by
  rw [banish_closed]

/-! ### Claims -/

/-- C1: the claim says the scoped façade invokes full shutdown (`exile`)
exactly once on every scope exit — normal completion, early return, or an
error raised by the body.  On the code this fails: the generators of `pool`
and `summoning_pool` have no `try`/`finally` around their `yield`, so when
the body raises, the exception is thrown into the generator and the
`pool.exile()` line never runs.  This theorem evaluates the embedded scope
semantics: `exile` runs once on normal completion and on early return, and
zero times when the body raises. -/
theorem pool_scope_skips_exile_on_raised_error :
    poolScopeExileCalls ScopeExit.normal = 1 ∧
    poolScopeExileCalls ScopeExit.earlyReturn = 1 ∧
    poolScopeExileCalls ScopeExit.raised = 0 ∧
    summoningPoolScopeExileCalls ScopeExit.normal = 1 ∧
    summoningPoolScopeExileCalls ScopeExit.earlyReturn = 1 ∧
    summoningPoolScopeExileCalls ScopeExit.raised = 0 := by
  decide

/-- C2: for every item a worker successfully dequeues and unpacks, if the
operation returns `v` then exactly `v` is appended to the outbox and the
errbox is untouched; if it raises `e` then exactly `e` is appended to the
errbox and the outbox is untouched; in both cases `task_done` is called
exactly once, and the handler returns normally (no exception escapes the
worker loop: `Worker.handleItem` is a total function into `WorkerBoxes`). -/
theorem worker_routes_outcome_and_marks_done {ρ ε : Type} (v : ρ) (e : ε)
    (st : WorkerBoxes ρ ε) :
    Worker.handleItem (ExecOutcome.ok v) st =
      { st with outbox := st.outbox ++ [v],
                taskDoneCalls := st.taskDoneCalls + 1 } ∧
    Worker.handleItem (ExecOutcome.raises e) st =
      { st with errbox := st.errbox ++ [e],
                taskDoneCalls := st.taskDoneCalls + 1 } :=
  ⟨rfl, rfl⟩

/-- C3: `stop(join=true)` performs, in order: the blocking `inbox.join()`
(zero pending items), then setting the stop event, then joining every
currently-live worker; `stop(join=false)` sets the stop event immediately,
with no `inbox.join()` before it.  This holds for `WorkerPool.stop` and for
`SummoningPool.stop` (which only prepends setting the watchman's stop
event). -/
theorem stop_event_order (st st2 : PoolState) :
    (WorkerPool.stop st true).2 =
      PoolEvent.inboxJoin :: PoolEvent.setStop
        :: st.pool.map (fun w => PoolEvent.joinWorker w.name) ∧
    (WorkerPool.stop st false).2 =
      PoolEvent.setStop :: st.pool.map (fun w => PoolEvent.joinWorker w.name) ∧
    (SummoningPool.stop st2 true).2 =
      PoolEvent.setWatcherStop :: PoolEvent.inboxJoin :: PoolEvent.setStop
        :: st2.pool.map (fun w => PoolEvent.joinWorker w.name) ∧
    (SummoningPool.stop st2 false).2 =
      PoolEvent.setWatcherStop :: PoolEvent.setStop
        :: st2.pool.map (fun w => PoolEvent.joinWorker w.name) :=
  ⟨rfl, rfl, rfl, rfl⟩

/-- C7: `banish(count)` removes exactly `min(count, poolsize())` workers,
most-recently-added first (the kept pool is the prefix, the removed list is
the reversed suffix), signals each removed worker's banish event and then
joins each removed worker; it is total (never raises), and when
`count ≥ poolsize()` the pool size becomes `0`. -/
theorem banish_removes_min_count_lifo (st : PoolState) (count : Nat) :
    (WorkerPool.banish st count).1.pool =
      st.pool.take (st.pool.length - min count st.pool.length) ∧
    ((st.pool.drop (st.pool.length - min count st.pool.length)).reverse.map
        WorkerRec.banish).length = min count st.pool.length ∧
    (WorkerPool.banish st count).2 =
      ((st.pool.drop (st.pool.length - min count st.pool.length)).reverse.map
          WorkerRec.banish).map (fun w => PoolEvent.banishSignal w.name)
        ++ ((st.pool.drop (st.pool.length - min count st.pool.length)).reverse.map
            WorkerRec.banish).map (fun w => PoolEvent.joinWorker w.name) ∧
    (st.pool.length ≤ count →
      WorkerPool.poolsize (WorkerPool.banish st count).1 = 0) := by
  refine ⟨by rw [banish_closed], ?_, by rw [banish_closed], ?_⟩
  · simp
    omega
  · intro h
    rw [poolsize_banish]
    simp [WorkerPool.poolsize]
    omega

/-- Witness for C7 at a concrete pool of 2 workers and `count = 5 > 2`. -/
theorem banish_removes_min_count_lifo_witness :
    WorkerPool.poolsize (WorkerPool.banish (WorkerPool.make 2 0) 5).1 = 0 :=
  (banish_removes_min_count_lifo (WorkerPool.make 2 0) 5).2.2.2 (by decide)

/-- C8: `summon(count, s)` appends exactly `count` new workers after the
existing ones, the `cn`-th new worker (0-based) carrying accumulated stagger
`(cn + 1) * s` independent of the existing workers; and a pool constructed
with `N` workers has `poolsize() = N` immediately after construction. -/
theorem summon_appends_staggered_workers (st : PoolState) (count s N s0 : Nat) :
    (WorkerPool.summon st count s).pool =
      st.pool ++ (List.range count).map (fun cn => ⟨cn, (cn + 1) * s, false⟩) ∧
    WorkerPool.poolsize (WorkerPool.summon st count s) =
      WorkerPool.poolsize st + count ∧
    WorkerPool.poolsize (WorkerPool.make N s0) = N := by
  refine ⟨summon_pool_eq st count s, poolsize_summon st count s, ?_⟩
  simp [WorkerPool.make, WorkerPool.poolsize, summon_pool_eq]

/-- C4 counterexample: the claim says every terminated worker is removed
from the live collection, so `poolsize()` counts only live workers after any
sequence of summon/banish/stop.  Concretely: construct a pool of one worker
and call `stop()`.  The stop event is set, the worker has terminated, yet
`poolsize()` is still `1` and the pool list contains no non-terminated
worker — `stop` never removes workers from `self.pool`. -/
theorem stopped_workers_remain_counterexample :
    WorkerPool.poolsize (applyOps (WorkerPool.make 1 0) [PoolOp.stopOp true]) = 1 ∧
    (applyOps (WorkerPool.make 1 0) [PoolOp.stopOp true]).stopFlag = true ∧
    ((applyOps (WorkerPool.make 1 0) [PoolOp.stopOp true]).pool.filter
        (fun w =>
          ! WorkerRec.terminatedIn
              (applyOps (WorkerPool.make 1 0) [PoolOp.stopOp true]) w)).length
      = 0 := by
  decide

/-- C4 amended: workers terminated via `banish` are removed from the live
collection (the pool keeps exactly the non-removed prefix), but `stop` leaves
`self.pool` unchanged while terminating every worker in it, so after `stop`
the pool list consists entirely of terminated workers and `poolsize()` still
reports the pre-stop count. -/
theorem banish_removes_but_stop_retains_workers (st : PoolState) (count : Nat)
    (j : Bool) :
    (WorkerPool.banish st count).1.pool =
      st.pool.take (st.pool.length - min count st.pool.length) ∧
    (WorkerPool.stop st j).1.pool = st.pool ∧
    WorkerPool.poolsize (WorkerPool.stop st j).1 = WorkerPool.poolsize st ∧
    ((WorkerPool.stop st j).1.pool.all
        (fun w => WorkerRec.terminatedIn (WorkerPool.stop st j).1 w)) = true := by
  refine ⟨by rw [banish_closed], rfl, rfl, ?_⟩
  simp [WorkerPool.stop, WorkerRec.terminatedIn]

/-- C9 counterexample: the claim says a second `stop()` does not join
already-terminated workers a second time.  Concretely: pool of one worker,
`stop()` completes (stop event set, the worker joined).  The second `stop()`
iterates the unchanged `self.pool` and emits exactly one more
`joinWorker` event for that already-terminated worker. -/
theorem second_stop_rejoins_counterexample :
    (WorkerPool.stop (WorkerPool.make 1 0) true).1.stopFlag = true ∧
    ((WorkerPool.stop (WorkerPool.stop (WorkerPool.make 1 0) true).1 true).2.filter
        PoolEvent.isJoinWorker).length = 1 := by
  decide

/-- Worker-join events survive the `isJoinWorker` filter unchanged. -/
theorem filter_isJoinWorker_map_joinWorker (l : List WorkerRec) :
    (l.map (fun w => PoolEvent.joinWorker w.name)).filter
        PoolEvent.isJoinWorker =
      l.map (fun w => PoolEvent.joinWorker w.name) := by
  induction l with
  | nil => rfl
  | cons a l ih => simp [List.filter, PoolEvent.isJoinWorker, ih]

/-- C9 amended: a second `stop()` after a completed one does not throw (the
embedded `stop` is total) and leaves the state unchanged, but it re-issues
the same event trace — in particular it joins each already-terminated worker
once more, since `stop` does not clear `self.pool` (in this runtime, joining
a finished thread returns immediately). -/
theorem stop_idempotent_state_but_rejoins_workers (st : PoolState) (j : Bool) :
    (WorkerPool.stop (WorkerPool.stop st j).1 j).1 = (WorkerPool.stop st j).1 ∧
    (WorkerPool.stop (WorkerPool.stop st j).1 j).2 = (WorkerPool.stop st j).2 ∧
    ((WorkerPool.stop (WorkerPool.stop st j).1 j).2.filter
        PoolEvent.isJoinWorker) =
      st.pool.map (fun w => PoolEvent.joinWorker w.name) := by
  refine ⟨rfl, rfl, ?_⟩
  cases j <;>
    simp [WorkerPool.stop, List.filter_append, PoolEvent.isJoinWorker,
      filter_isJoinWorker_map_joinWorker]

/-- C5: one Watchman tick implements exactly the claimed control policy —
`Watchman.tick` (translated from the source) equals `watchmanTickSpec`
(transcribed from the claim's wording). -/
theorem watchman_tick_matches_spec (w : Watchman) (st : PoolState) :
    Watchman.tick w st = watchmanTickSpec w st := by
  simp only [Watchman.tick, watchmanTickSpec, gt_iff_lt, Nat.pos_iff_ne_zero]

/-- C6: a Watchman tick never grows the pool beyond `maxw`: if
`poolsize() ≤ maxw` before the tick then `poolsize() ≤ maxw` after it. -/
theorem watchman_tick_preserves_max_workers (w : Watchman) (st : PoolState)
    (h : WorkerPool.poolsize st ≤ w.maxw) :
    WorkerPool.poolsize (Watchman.tick w st).1 ≤ w.maxw := by
  simp only [Watchman.tick]
  split_ifs <;> simp only [poolsize_summon, poolsize_banish] <;> omega

/-- Witness for C6: a full inbox against one worker, `maxw = 5`. -/
theorem watchman_tick_preserves_max_workers_witness :
    WorkerPool.poolsize
      (Watchman.tick ⟨1, 5, 3, 2⟩
        { inboxSize := 20, pool := (WorkerPool.make 1 0).pool,
          runFlag := true, stopFlag := false }).1 ≤ 5 :=
  watchman_tick_preserves_max_workers ⟨1, 5, 3, 2⟩
    { inboxSize := 20, pool := (WorkerPool.make 1 0).pool,
      runFlag := true, stopFlag := false } (by decide)

/-- C10 (implicit): on a busy tick (`backlog > 0`, `workers > 0`) with
`backlog / workers < ratio`, the Watchman issues `banish(rate)`
unconditionally — no lower bound at the baseline count — and the tick leaves
the backlog untouched; consequently (concrete run: `wcount = 2`, `ratio = 2`,
`rate = 1`, two workers, backlog 1) two such ticks drive `poolsize()` from
`2` to `0`, below the baseline, while the backlog is still non-empty. -/
theorem watchman_busy_tick_banishes_below_baseline :
    (∀ (w : Watchman) (st : PoolState),
        0 < st.inboxSize → 0 < WorkerPool.poolsize st →
        st.inboxSize / WorkerPool.poolsize st < w.ratio →
        (Watchman.tick w st).2 = WatchAction.banished w.rate ∧
        WorkerPool.poolsize (Watchman.tick w st).1 =
          WorkerPool.poolsize st - min w.rate (WorkerPool.poolsize st) ∧
        (Watchman.tick w st).1.inboxSize = st.inboxSize) ∧
    (WorkerPool.poolsize
        (Watchman.tick ⟨2, 5, 1, 2⟩
          (Watchman.tick ⟨2, 5, 1, 2⟩
            { inboxSize := 1, pool := (WorkerPool.make 2 0).pool,
              runFlag := true, stopFlag := false }).1).1 = 0 ∧
      (Watchman.tick ⟨2, 5, 1, 2⟩
          (Watchman.tick ⟨2, 5, 1, 2⟩
            { inboxSize := 1, pool := (WorkerPool.make 2 0).pool,
              runFlag := true, stopFlag := false }).1).1.inboxSize = 1 ∧
      WorkerPool.poolsize
        { inboxSize := 1, pool := (WorkerPool.make 2 0).pool,
          runFlag := true, stopFlag := (false : Bool) } = 2) := by
  constructor
  · intro w st h1 h2 h3
    have hne : st.inboxSize ≠ 0 ∧ WorkerPool.poolsize st ≠ 0 := by omega
    have hnot : ¬ (w.ratio < st.inboxSize / WorkerPool.poolsize st ∧
        WorkerPool.poolsize st < w.maxw) := by
      intro hh
      omega
    simp only [Watchman.tick, gt_iff_lt]
    rw [if_pos hne, if_neg hnot, if_pos h3]
    exact ⟨rfl, poolsize_banish st w.rate, banish_inboxSize st w.rate⟩
  · decide

/-- Witness for C10 at the concrete busy state: two workers against a
backlog of one item with `ratio = 2`. -/
theorem watchman_busy_tick_banishes_below_baseline_witness :
    (Watchman.tick ⟨2, 5, 1, 2⟩
        { inboxSize := 1, pool := (WorkerPool.make 2 0).pool,
          runFlag := true, stopFlag := false }).2 =
      WatchAction.banished 1 :=
  (watchman_busy_tick_banishes_below_baseline.1 ⟨2, 5, 1, 2⟩
    { inboxSize := 1, pool := (WorkerPool.make 2 0).pool,
      runFlag := true, stopFlag := false }
    (by decide) (by decide) (by decide)).1

end Workerpool
